import Mathlib

/-!
# Formal model of the validator-node TSS core

Shallow embedding of the signing-coordinator path (`ValidatorNode.handleSignalEvent`,
`ChainMonitorService.listenSignalEvents`), the DKG engine (`DKGService`), and the
file-based key store (`FileBasedKeyStore`), with theorems settling the spec claims.

Bytes are modelled as `List Nat` (each entry a byte value), JavaScript `bigint`s as
`Nat`, hex strings as `String`, and the external elliptic-curve / AES-GCM / PBKDF2
library primitives as abstract function parameters.
-/

/-- secp256k1 group order, as hard-coded in `DKGService.round3_GenerateShares`
and `round5_ComputeKeyShare`. -/
def secp256k1_n : Nat :=
  0xFFFFFFFFFFFFFFFFFFFFFFFFFFFFFFFEBAAEDCE6AF48A03BBFD25E8CD0364141

/-- Value of one hex digit character (0 for non-hex characters, as
`Buffer.from(-, hex)` tolerates). -/
def hexDigitVal (c : Char) : Nat :=
  let n := c.toNat
  if 48 ≤ n ∧ n ≤ 57 then n - 48
  else if 97 ≤ n ∧ n ≤ 102 then n - 87
  else if 65 ≤ n ∧ n ≤ 70 then n - 55
  else 0

/-- Decode a list of hex characters into bytes, two characters per byte,
modelling `Buffer.from(s, hex)`. -/
def hexPairsToBytes : List Char → List Nat
  | c1 :: c2 :: rest => (hexDigitVal c1 * 16 + hexDigitVal c2) :: hexPairsToBytes rest
  | _ => []

/-- JavaScript `s.slice(0, n)` on a string. -/
def strTake (s : String) (n : Nat) : String :=
  String.mk (s.toList.take n)

/-- Big-endian byte-list to integer, modelling
`BigInt(0x || buf.toString(hex))` on a byte buffer. -/
def bytesToNat (bytes : List Nat) : Nat :=
  bytes.foldl (fun acc b => acc * 256 + b) 0

/-- A `SignalSent` log as decoded by ethers from the Signal contract ABI
(`ChainMonitorService.listenSignalEvents`). -/
structure SignalSentLog where
  signalId : String
  srcChainId : Nat
  dstChainId : Nat
  srcAddress : String
  dstAddress : String
  nonce : Nat
  payload : String
  timestamp : Nat
  txHash : String
  blockNumber : Nat

/-- The object emitted on the monitor's `signalEvent` channel: numeric fields are
stringified exactly as in `listenSignalEvents`. -/
structure SignalEventM where
  signalId : String
  srcChainId : String
  dstChainId : String
  srcAddress : String
  dstAddress : String
  nonce : String
  payload : String
  timestamp : String
  txHash : String
  blockNumber : Nat
  chainName : String

/-- `listenSignalEvents`: each `SignalSent` log is emitted as one `signalEvent`,
with the numeric fields converted by `toString`; no deduplication is applied. -/
def toSignalEvent (chainName : String) (lg : SignalSentLog) : SignalEventM :=
  { signalId := lg.signalId
    srcChainId := toString lg.srcChainId
    dstChainId := toString lg.dstChainId
    srcAddress := lg.srcAddress
    dstAddress := lg.dstAddress
    nonce := toString lg.nonce
    payload := lg.payload
    timestamp := toString lg.timestamp
    txHash := lg.txHash
    blockNumber := lg.blockNumber
    chainName := chainName }

/-- The monitor's emission stream for a list of delivered `SignalSent` logs:
one event per log, duplicates included. -/
def monitorEmitSignalEvents (chainName : String) (logs : List SignalSentLog) : List SignalEventM :=
  logs.map (toSignalEvent chainName)

/-- `ValidatorNode.handleSignalEvent`: the request id is
`signalId ++ "-" ++ txHash.slice(0, 10)`. -/
def requestIdOf (ev : SignalEventM) : String :=
  ev.signalId ++ "-" ++ strTake ev.txHash 10

/-- The message bytes the coordinator submits for signing:
`Buffer.from(event.signalId.slice(2), hex)` — the raw signal id with the 0x
prefix removed, hex-decoded. -/
def signingMessage (ev : SignalEventM) : List Nat :=
  hexPairsToBytes (ev.signalId.toList.drop 2)

/-- The signing request handed to `tssService.initiateSigning`. -/
structure SigningRequestM where
  requestId : String
  txHash : String
  sourceChain : String
  destinationChain : String
  message : List Nat
  participants : List Nat

/-- Construction of the signing request in `handleSignalEvent` (lines 255-262). -/
def mkSigningRequest (ev : SignalEventM) : SigningRequestM :=
  { requestId := requestIdOf ev
    txHash := ev.txHash
    sourceChain := ev.srcChainId
    destinationChain := ev.dstChainId
    message := signingMessage ev
    participants := [1, 2, 3] }

/-- Observable side effects accumulated by the validator node's collaborators:
revenue-recording calls, TSS signing initiations, and messages sent to the
orchestrator. -/
structure NodeState where
  revenueCalls : List (String × String × String × String)
  initiatedSignings : List SigningRequestM
  sentMessages : List (String × String)

/-- Which awaited sub-operations of `handleSignalEvent` reject, and whether the
orchestrator WebSocket is open. -/
structure OpOutcomes where
  revenueThrows : Bool
  signingThrows : Bool
  wsOpen : Bool
  sendThrows : Bool

/-- The try block of `handleSignalEvent`: record revenue, initiate TSS signing,
then notify the orchestrator if connected.  A rejecting await raises the error
(second component); state mutations made before the raise persist. -/
def handleSignalEventTry (o : OpOutcomes) (ev : SignalEventM) (s : NodeState) :
    NodeState × Option String :=
  let req := mkSigningRequest ev
  let s1 := { s with revenueCalls :=
    s.revenueCalls ++ [(ev.signalId, ev.srcChainId, ev.dstChainId, ev.txHash)] }
  if o.revenueThrows then (s1, some "revenue recording failed") else
  let s2 := { s1 with initiatedSignings := s1.initiatedSignings ++ [req] }
  if o.signingThrows then (s2, some "TSS signing initiation failed") else
  if o.wsOpen then
    let s3 := { s2 with sentMessages := s2.sentMessages ++ [("SIGNAL_EVENT", req.requestId)] }
    if o.sendThrows then (s3, some "orchestrator send failed") else (s3, none)
  else (s2, none)

/-- Result of one `handleSignalEvent` invocation: final collaborator state, the
error logged by the catch block (if any), and whether an exception escaped to
the caller. -/
structure HandlerReturn where
  state : NodeState
  loggedError : Option String
  rethrown : Bool

/-- `handleSignalEvent`: the whole body runs inside try/catch; the catch block
only logs (`Error handling signal event:`) and never rethrows. -/
def handleSignalEvent (o : OpOutcomes) (ev : SignalEventM) (s : NodeState) : HandlerReturn :=
  match handleSignalEventTry o ev s with
  | (s1, some e) => { state := s1, loggedError := some ("Error handling signal event: " ++ e), rethrown := false }
  | (s1, none) => { state := s1, loggedError := none, rethrown := false }

/-- Fold `handleSignalEvent` over a stream of monitor events. -/
def processEvents (o : OpOutcomes) (evs : List SignalEventM) (s : NodeState) : NodeState :=
  evs.foldl (fun st ev => (handleSignalEvent o ev st).state) s

/-- All awaited sub-operations succeed and the orchestrator socket is open. -/
def allOk : OpOutcomes :=
  { revenueThrows := false, signingThrows := false, wsOpen := true, sendThrows := false }

/-- The empty collaborator state. -/
def emptyNodeState : NodeState :=
  { revenueCalls := [], initiatedSignings := [], sentMessages := [] }

/-- `DKGService` configuration (the fields the modelled rounds consume). -/
structure DKGConfigM where
  partyId : Nat
  threshold : Nat
  totalParties : Nat

/-- A `DKGCommitment` message: Feldman commitments as hex point strings plus
the proof string. -/
structure DKGCommitmentM where
  partyId : Nat
  commitments : List String
  proof : String
  timestamp : Nat

/-- A `DKGShare` message; `encryptedShare` holds the numeric value of the
64-hex-digit share string. -/
structure DKGShareM where
  fromParty : Nat
  toParty : Nat
  encryptedShare : Nat
  proof : String

/-- The messages a party's `handleOrchestratorMessage` has accumulated by the
time each wait loop inspects them: `receivedCommitments`, `receivedShares` and
`receivedPublicKeyShares`, each keyed by the sender's party id. -/
structure DKGEnvM where
  commitments : List (Nat × DKGCommitmentM)
  shares : List (Nat × DKGShareM)
  pubKeyShares : List (Nat × List Nat)

/-- The `DKGResult` returned by a successful ceremony (key share as the scalar
value of the 32-byte buffer). -/
structure DKGResultM where
  keyShare : Nat
  publicKeyShare : List Nat
  aggregatedPublicKey : List Nat
  participants : List Nat

/-- The evaluation loop shared by `round3_GenerateShares` and
`round5_ComputeKeyShare`: `shareValue = (shareValue + coeff * xPower) % n;
xPower = (xPower * x) % n` over the coefficient list. -/
def polyEvalLoop (n x : Nat) : List Nat → Nat → Nat → Nat
  | [], acc, _ => acc
  | c :: cs, acc, xPow => polyEvalLoop n x cs ((acc + c * xPow) % n) ((xPow * x) % n)

/-- The share value party `i` computes for evaluation point `x = toParty`. -/
def round3_shareValue (coeffs : List Nat) (toParty : Nat) : Nat :=
  polyEvalLoop secp256k1_n toParty coeffs 0 1

/-- `round3_GenerateShares`: one `DKGShare` per party `j ≠ i`, carrying the
polynomial evaluation at `j` and the placeholder proof string. -/
def round3_GenerateShares (cfg : DKGConfigM) (coeffs : List Nat) : List DKGShareM :=
  (((List.range cfg.totalParties).map (· + 1)).filter (fun j => j ≠ cfg.partyId)).map
    (fun j => { fromParty := cfg.partyId, toParty := j,
                encryptedShare := round3_shareValue coeffs j,
                proof := "simplified-proof" })

/-- `round4_VerifyShares`: the function body performs no check on any received
share — it only logs and resolves. -/
def round4_VerifyShares (_env : DKGEnvM) : Except String Unit :=
  Except.ok ()

/-- `round5_ComputeKeyShare`: evaluate own polynomial at own party id, then add
every received share whose `toParty` equals this party, reducing mod `n` at
each step. -/
def round5_keyShare (cfg : DKGConfigM) (coeffs : List Nat)
    (shares : List (Nat × DKGShareM)) : Nat :=
  let myOwn := polyEvalLoop secp256k1_n cfg.partyId coeffs 0 1
  shares.foldl
    (fun tot s =>
      if s.2.toParty = cfg.partyId then (tot + s.2.encryptedShare) % secp256k1_n else tot)
    myOwn

/-- `verifyCommitment`: the only check performed is that the number of
commitments equals the configured threshold; the proof field is never
inspected. -/
def verifyCommitment (cfg : DKGConfigM) (c : DKGCommitmentM) : Bool :=
  c.commitments.length == cfg.threshold

/-- `waitForAllCommitments`: the poll loop either observes
`totalParties - 1` received commitments or throws the timeout error with the
received/required counts. -/
def waitForAllCommitments (cfg : DKGConfigM) (env : DKGEnvM) : Except String Unit :=
  let required := cfg.totalParties - 1
  if env.commitments.length < required then
    Except.error ("Timeout waiting for commitments (received " ++
      toString env.commitments.length ++ "/" ++ toString required ++ ")")
  else Except.ok ()

/-- `round2_VerifyCommitments`: wait for all commitments, then throw
`Invalid commitment from Party j` at the first commitment failing
`verifyCommitment`. -/
def round2_VerifyCommitments (cfg : DKGConfigM) (env : DKGEnvM) : Except String Unit := do
  _ ← waitForAllCommitments cfg env
  match env.commitments.find? (fun pc => !(verifyCommitment cfg pc.2)) with
  | some pc => Except.error ("Invalid commitment from Party " ++ toString pc.1)
  | none => Except.ok ()

/-- `waitForAllPublicKeyShares`: as `waitForAllCommitments`, for round 7. -/
def waitForAllPublicKeyShares (cfg : DKGConfigM) (env : DKGEnvM) : Except String Unit :=
  let required := cfg.totalParties - 1
  if env.pubKeyShares.length < required then
    Except.error ("Timeout waiting for public key shares (received " ++
      toString env.pubKeyShares.length ++ "/" ++ toString required ++ ")")
  else Except.ok ()

/-- Outcome of a whole ceremony: the result (or thrown error), and the list of
key shares handed to `hsmStore.storeKeyShare`. -/
structure CeremonyOutcome where
  result : Except String DKGResultM
  persistedKeyShares : List Nat

/-- `runDKGCeremony`: rounds 2-7 in order (round 1's random sampling is the
`coeffs` argument; the curve operations `schnorr.getPublicKey` and projective
point addition are the abstract parameters `pubkeyOf` and `pointAdd`).  The key
share is persisted only when every round has succeeded and an HSM store is
configured; a thrown error propagates and skips persistence. -/
def runDKGCeremony (cfg : DKGConfigM) (env : DKGEnvM) (coeffs : List Nat)
    (pubkeyOf : Nat → List Nat) (pointAdd : List Nat → List Nat → List Nat)
    (hsmPresent : Bool) : CeremonyOutcome :=
  let run : Except String DKGResultM := do
    _ ← round2_VerifyCommitments cfg env
    let _sent := round3_GenerateShares cfg coeffs
    _ ← round4_VerifyShares env
    let ks := round5_keyShare cfg coeffs env.shares
    let myPub := pubkeyOf ks
    _ ← waitForAllPublicKeyShares cfg env
    let agg := env.pubKeyShares.foldl (fun acc p => pointAdd acc p.2) myPub
    Except.ok { keyShare := ks, publicKeyShare := myPub, aggregatedPublicKey := agg,
                participants := (List.range cfg.totalParties).map (· + 1) }
  match run with
  | Except.ok r =>
      { result := Except.ok r,
        persistedKeyShares := if hsmPresent then [r.keyShare] else [] }
  | Except.error e => { result := Except.error e, persistedKeyShares := [] }

/-- `round1_GenerateCommitments` coefficient sampling:
`BigInt(0x || crypto.randomBytes(32).toString(hex))` — the big-endian value of
32 random bytes, with no reduction mod the curve order and no exclusion of 0. -/
def sampleCoefficient (randomBytes : List Nat) : Nat :=
  bytesToNat randomBytes

/-- An authenticated cipher as used through node's `crypto`
(`createCipheriv aes-256-gcm`): `enc key iv plaintext` yields the ciphertext
and the auth tag; `dec key iv tag ciphertext` yields the plaintext or fails
authentication. -/
structure GCMCipher where
  enc : List Nat → List Nat → List Nat → List Nat × List Nat
  dec : List Nat → List Nat → List Nat → List Nat → Option (List Nat)

/-- `FileBasedKeyStore.encryptKeyShare`: key = PBKDF2(password, salt, 100000
iterations, 32 bytes, SHA-256); output = salt ∥ iv ∥ authTag ∥ ciphertext.
The `kdf` argument models `crypto.pbkdf2Sync` with digest sha256; `salt` and
`iv` model the `crypto.randomBytes(32)` / `crypto.randomBytes(16)` draws. -/
def encryptKeyShare (C : GCMCipher) (kdf : String → List Nat → Nat → Nat → List Nat)
    (salt iv keyShare : List Nat) (password : String) : List Nat :=
  let key := kdf password salt 100000 32
  let ct := (C.enc key iv keyShare).1
  let authTag := (C.enc key iv keyShare).2
  salt ++ iv ++ authTag ++ ct

/-- `FileBasedKeyStore.decryptKeyShare`: salt = bytes 0-31, iv = 32-47,
authTag = 48-63, ciphertext = the rest; re-derive the key and decrypt. -/
def decryptKeyShare (C : GCMCipher) (kdf : String → List Nat → Nat → Nat → List Nat)
    (data : List Nat) (password : String) : Option (List Nat) :=
  let salt := data.take 32
  let iv := (data.drop 32).take 16
  let authTag := (data.drop 48).take 16
  let ct := data.drop 64
  C.dec (kdf password salt 100000 32) iv authTag ct

/-- `FileBasedKeyStore.storeKeyShare`: the bytes written to the key file are
the encrypted envelope when `config.encryption.password` is set, and the raw
key share otherwise. -/
def storeKeyShareBytes (C : GCMCipher) (kdf : String → List Nat → Nat → Nat → List Nat)
    (password : Option String) (salt iv keyShare : List Nat) : List Nat :=
  match password with
  | some pw => encryptKeyShare C kdf salt iv keyShare pw
  | none => keyShare

/-- A concrete cipher instance for witnesses: ciphertext = plaintext, tag =
sixteen zero bytes, decryption always succeeds. -/
def trivialCipher : GCMCipher :=
  { enc := fun _key _iv pt => (pt, List.replicate 16 0)
    dec := fun _key _iv _tag ct => some ct }

/-- A concrete key-derivation instance for witnesses. -/
def trivialKdf : String → List Nat → Nat → Nat → List Nat :=
  fun _pw _salt _iters len => List.replicate len 7

/-- Horner form of the share polynomial `a_0 + a_1 x + ... + a_{t-1} x^{t-1}`
(without reduction); used to relate the code's evaluation loop to the
coefficient sum. -/
def polyHorner (x : Nat) : List Nat → Nat
  | [] => 0
  | c :: cs => c + x * polyHorner x cs

/-- The spec scenario signal id `0x0101…01` (32 bytes of 0x01). -/
def testSignalId : String :=
  "0x0101010101010101010101010101010101010101010101010101010101010101"

/-- Concrete signal event from the spec's happy-signing scenario:
src chain 1, dst chain 56, nonce 7, payload 0xdead. -/
def testEvent : SignalEventM :=
  { signalId := testSignalId
    srcChainId := "1"
    dstChainId := "56"
    srcAddress := "0xaaaa000000000000000000000000000000000001"
    dstAddress := "0xbbbb000000000000000000000000000000000002"
    nonce := "7"
    payload := "0xdead"
    timestamp := "1700000000"
    txHash := "0xfeedc0de001122334455667788"
    blockNumber := 100
    chainName := "Ethereum" }

/-- The same observation with a different nonce and payload. -/
def testEventOther : SignalEventM :=
  { testEvent with nonce := "9", payload := "0xbeef" }

/-- The `SignalSent` log corresponding to `testEvent`, as re-delivered by a
provider. -/
def testLog : SignalSentLog :=
  { signalId := testSignalId
    srcChainId := 1
    dstChainId := 56
    srcAddress := "0xaaaa000000000000000000000000000000000001"
    dstAddress := "0xbbbb000000000000000000000000000000000002"
    nonce := 7
    payload := "0xdead"
    timestamp := 1700000000
    txHash := "0xfeedc0de001122334455667788"
    blockNumber := 100 }

/-- A well-formed commitment message from party `p` for threshold 3 with the
hash-based placeholder proof. -/
def testCommitment (p : Nat) : DKGCommitmentM :=
  { partyId := p
    commitments := ["02aa", "02bb", "02cc"]
    proof := "sha256-of-commitments"
    timestamp := 0 }

/-- Party 1's view of a 3-of-5 ceremony in which party 4 broadcast its
commitment and then dropped: commitments from 2,3,4,5; shares and public key
shares only from 2,3,5. -/
def dropEnv : DKGEnvM :=
  { commitments :=
      [(2, testCommitment 2), (3, testCommitment 3), (4, testCommitment 4), (5, testCommitment 5)]
    shares :=
      [(2, { fromParty := 2, toParty := 1, encryptedShare := 11, proof := "simplified-proof" }),
       (3, { fromParty := 3, toParty := 1, encryptedShare := 12, proof := "simplified-proof" }),
       (5, { fromParty := 5, toParty := 1, encryptedShare := 13, proof := "simplified-proof" })]
    pubKeyShares := [(2, [2]), (3, [3]), (5, [5])] }

/-- Configuration of party 1 in the 3-of-5 ceremony. -/
def testDKGConfig : DKGConfigM :=
  { partyId := 1, threshold := 3, totalParties := 5 }

/-- Placeholder curve operation: public key of a scalar (abstract instance for
concrete evaluations). -/
def testPubkeyOf : Nat → List Nat :=
  fun k => [k % 256]

/-- Placeholder point addition (abstract instance for concrete evaluations). -/
def testPointAdd : List Nat → List Nat → List Nat :=
  fun a b => a ++ b

/-- The DKG evaluation loop computes the Horner value of the remaining
coefficients, modulo `n`, when its accumulators are already reduced. -/
theorem polyEvalLoop_eq (n x : Nat) :
    ∀ (cs : List Nat) (acc xPow : Nat),
      polyEvalLoop n x cs (acc % n) (xPow % n) = (acc + xPow * polyHorner x cs) % n := by
  intro cs
  induction cs with
  | nil => intro acc xPow; simp [polyEvalLoop, polyHorner]
  | cons c cs ih =>
    intro acc xPow
    have h1 : (acc % n + c * (xPow % n)) % n = (acc + c * xPow) % n :=
      (Nat.mod_modEq acc n).add ((Nat.mod_modEq xPow n).mul_left c)
    have h2 : ((xPow % n) * x) % n = (xPow * x) % n :=
      (Nat.mod_modEq xPow n).mul_right x
    calc polyEvalLoop n x (c :: cs) (acc % n) (xPow % n)
        = polyEvalLoop n x cs ((acc % n + c * (xPow % n)) % n) (((xPow % n) * x) % n) := rfl
      _ = polyEvalLoop n x cs ((acc + c * xPow) % n) ((xPow * x) % n) := by rw [h1, h2]
      _ = (acc + c * xPow + (xPow * x) * polyHorner x cs) % n := ih _ _
      _ = (acc + xPow * polyHorner x (c :: cs)) % n := by
          show _ = (acc + xPow * (c + x * polyHorner x cs)) % n
          congr 1
          ring

/-- Horner evaluation equals the coefficient sum `Σ a_k x^k`. -/
theorem polyHorner_eq_sum (x : Nat) :
    ∀ cs : List Nat, polyHorner x cs = ∑ k in Finset.range cs.length, cs.getD k 0 * x ^ k := by
  intro cs
  induction cs with
  | nil => simp [polyHorner]
  | cons c cs ih =>
    rw [show polyHorner x (c :: cs) = c + x * polyHorner x cs from rfl, ih,
      List.length_cons, Finset.sum_range_succ']
    simp only [List.getD_cons_succ, List.getD_cons_zero, pow_zero, pow_succ, mul_one]
    rw [Finset.mul_sum, add_comm]
    congr 1
    apply Finset.sum_congr rfl
    intro k _
    ring

/-- The share value the code computes for evaluation point `x` is exactly the
coefficient sum reduced modulo the curve order. -/
theorem round3_shareValue_eq (coeffs : List Nat) (x : Nat) :
    round3_shareValue coeffs x =
      (∑ k in Finset.range coeffs.length, coeffs.getD k 0 * x ^ k) % secp256k1_n := by
  have h0 : (0 : Nat) = 0 % secp256k1_n := by simp
  have h1 : (1 : Nat) = 1 % secp256k1_n := (Nat.mod_eq_of_lt (by decide)).symm
  rw [round3_shareValue, h0, h1, polyEvalLoop_eq, polyHorner_eq_sum]
  simp

/-- The round-5 accumulation over received shares equals adding the values of
the shares addressed to this party, modulo the curve order. -/
theorem foldl_shares_eq (n pid : Nat) :
    ∀ (l : List (Nat × DKGShareM)) (acc : Nat),
      l.foldl
        (fun tot s =>
          if s.2.toParty = pid then (tot + s.2.encryptedShare) % n else tot)
        (acc % n)
      = (acc + ((l.filter (fun s => s.2.toParty == pid)).map
          (fun s => s.2.encryptedShare)).sum) % n := by
  intro l
  induction l with
  | nil => intro acc; simp
  | cons s l ih =>
    intro acc
    by_cases hp : s.2.toParty = pid
    · have h1 : (acc % n + s.2.encryptedShare) % n = (acc + s.2.encryptedShare) % n :=
        (Nat.mod_modEq acc n).add_right _
      simp only [List.foldl_cons, if_pos hp, h1, List.filter_cons,
        show (s.2.toParty == pid) = true from beq_iff_eq.mpr hp]
      rw [ih]
      congr 1
      simp [Nat.add_assoc]
    · simp only [List.foldl_cons, if_neg hp, List.filter_cons,
        show (s.2.toParty == pid) = false from beq_eq_false_iff_ne.mpr hp]
      exact ih acc

/-- Bound on the big-endian byte fold: starting from `acc`, consuming `k`
bytes stays below `(acc + 1) * 256 ^ k`. -/
theorem bytesFold_lt :
    ∀ (l : List Nat) (acc : Nat), (∀ b ∈ l, b < 256) →
      l.foldl (fun a b => a * 256 + b) acc < (acc + 1) * 256 ^ l.length := by
  intro l
  induction l with
  | nil => intro acc _; simp
  | cons b l ih =>
    intro acc hb
    have hb0 : b < 256 := hb b (List.mem_cons_self b l)
    have hrest : ∀ x ∈ l, x < 256 := fun x hx => hb x (List.mem_cons_of_mem b hx)
    have step := ih (acc * 256 + b) hrest
    have hmono : (acc * 256 + b + 1) * 256 ^ l.length ≤ ((acc + 1) * 256) * 256 ^ l.length :=
      Nat.mul_le_mul_right _ (by omega)
    calc List.foldl (fun a b => a * 256 + b) (acc * 256 + b) l
        < (acc * 256 + b + 1) * 256 ^ l.length := step
      _ ≤ ((acc + 1) * 256) * 256 ^ l.length := hmono
      _ = (acc + 1) * 256 ^ (l.length + 1) := by ring

/-- C1: The bytes `handleSignalEvent` submits for signing are the raw 32
signal-id bytes (the hex-decoded `signalId` after stripping the 0x prefix),
not a hash of `signalId ∥ srcChainId ∥ dstChainId ∥ nonce ∥ payload`: for the
spec's happy-signing event the submitted message equals the 32 bytes 0x01, and
an event differing in nonce and payload yields the identical message. -/
theorem c1_signing_message_is_raw_signal_id :
    (mkSigningRequest testEvent).message = List.replicate 32 1
    ∧ (mkSigningRequest testEventOther).message = (mkSigningRequest testEvent).message := by
  constructor <;> rfl

/-- C2 counterexample: two monitor deliveries of the same `SignalSent` log
(same signalId) produce two TSS signing attempts, both with the same request
id — the handler deduplicates nothing. -/
theorem c2_duplicate_signal_two_signing_attempts :
    (processEvents allOk (monitorEmitSignalEvents "Ethereum" [testLog, testLog])
        emptyNodeState).initiatedSignings.length = 2
    ∧ ((processEvents allOk (monitorEmitSignalEvents "Ethereum" [testLog, testLog])
        emptyNodeState).initiatedSignings.map (fun r => r.requestId))
      = [requestIdOf (toSignalEvent "Ethereum" testLog),
         requestIdOf (toSignalEvent "Ethereum" testLog)] := by
  constructor <;> rfl

/-- C2 (amended): processing of signal events applies no deduplication in
`signalId` — every invocation of the signal callback initiates one more TSS
signing attempt, so two invocations carrying the same event append two
identical signing requests. -/
theorem c2_no_dedup_every_invocation_initiates_signing (s : NodeState) (ev : SignalEventM) :
    (handleSignalEvent allOk ev ((handleSignalEvent allOk ev s).state)).state.initiatedSignings
      = s.initiatedSignings ++ [mkSigningRequest ev, mkSigningRequest ev] := by
  simp [handleSignalEvent, handleSignalEventTry, allOk]

/-- C3: the round-4 share-verification step is a stub — it accepts every
environment without inspecting any share — and round 5 then includes a
corrupted share (value 999, satisfying no Feldman check) in the assembled key
share: party 1 with own polynomial 3 + 4x obtains (3 + 4) + 999 = 1006. -/
theorem c3_round4_accepts_everything_and_round5_includes_corrupted_share :
    (∀ env : DKGEnvM, round4_VerifyShares env = Except.ok ())
    ∧ round5_keyShare { partyId := 1, threshold := 2, totalParties := 5 } [3, 4]
        [(2, { fromParty := 2, toParty := 1, encryptedShare := 999,
               proof := "simplified-proof" })] = 1006 := by
  exact ⟨fun _ => rfl, by rfl⟩

/-- C4: the share party `i` computes for each party `j ≠ i` is the polynomial
evaluation `Σ_{k<t} a_k · j^k mod q` over the secp256k1 order, and the
assembled key share is the self-evaluation plus the sum of the received shares
addressed to this party, reduced mod q. -/
theorem c4_share_distribution_and_assembly (cfg : DKGConfigM) (coeffs : List Nat)
    (shares : List (Nat × DKGShareM)) :
    round3_GenerateShares cfg coeffs =
      (((List.range cfg.totalParties).map (· + 1)).filter (fun j => j ≠ cfg.partyId)).map
        (fun j =>
          { fromParty := cfg.partyId, toParty := j,
            encryptedShare :=
              (∑ k in Finset.range coeffs.length, coeffs.getD k 0 * j ^ k) % secp256k1_n,
            proof := "simplified-proof" })
    ∧ round5_keyShare cfg coeffs shares =
      ((∑ k in Finset.range coeffs.length, coeffs.getD k 0 * cfg.partyId ^ k) +
        ((shares.filter (fun s => s.2.toParty == cfg.partyId)).map
          (fun s => s.2.encryptedShare)).sum) % secp256k1_n := by
  constructor
  · unfold round3_GenerateShares
    simp only [round3_shareValue_eq]
  · unfold round5_keyShare
    rw [show polyEvalLoop secp256k1_n cfg.partyId coeffs 0 1
          = round3_shareValue coeffs cfg.partyId from rfl,
        round3_shareValue_eq]
    exact foldl_shares_eq secp256k1_n cfg.partyId shares _

/-- C5 counterexample: with party 4 silent after broadcasting its commitment
(3-of-5, party 1's view), the ceremony fails with the generic string
`Timeout waiting for public key shares (received 3/4)` — reporting counts from
the round-7 wait, not a `DKG_TIMEOUT` value naming round 3 and the missing
party list — though no key share is persisted. -/
theorem c5_drop_after_commitments_generic_timeout :
    (runDKGCeremony testDKGConfig dropEnv [5, 6, 7] testPubkeyOf testPointAdd true).result
      = Except.error "Timeout waiting for public key shares (received 3/4)"
    ∧ (runDKGCeremony testDKGConfig dropEnv [5, 6, 7] testPubkeyOf testPointAdd
        true).persistedKeyShares = [] := by
  constructor <;> rfl

/-- C5 (amended): whenever the commitment round succeeds but fewer than
`totalParties - 1` public key shares ever arrive, the ceremony fails with the
count-reporting timeout string thrown by the round-7 wait (identifying neither
a round number nor the missing parties), and no key share is persisted to the
key store. -/
theorem c5_timeout_at_pubkey_wait_and_no_persist (cfg : DKGConfigM) (env : DKGEnvM)
    (coeffs : List Nat) (pubkeyOf : Nat → List Nat)
    (pointAdd : List Nat → List Nat → List Nat) (hsm : Bool)
    (h2 : round2_VerifyCommitments cfg env = Except.ok ())
    (h7 : env.pubKeyShares.length < cfg.totalParties - 1) :
    (runDKGCeremony cfg env coeffs pubkeyOf pointAdd hsm).result
      = Except.error ("Timeout waiting for public key shares (received " ++
          toString env.pubKeyShares.length ++ "/" ++
          toString (cfg.totalParties - 1) ++ ")")
    ∧ (runDKGCeremony cfg env coeffs pubkeyOf pointAdd hsm).persistedKeyShares = [] := by
  have hw : waitForAllPublicKeyShares cfg env
      = Except.error ("Timeout waiting for public key shares (received " ++
          toString env.pubKeyShares.length ++ "/" ++
          toString (cfg.totalParties - 1) ++ ")") := by
    unfold waitForAllPublicKeyShares
    rw [if_pos h7]
  unfold runDKGCeremony
  simp only [h2, hw, round4_VerifyShares, Except.bind, bind]
  exact ⟨trivial, trivial⟩

/-- C5 witness: the amended theorem applied to the concrete party-4-drop
scenario. -/
theorem c5_timeout_witness :
    (runDKGCeremony testDKGConfig dropEnv [5, 6, 7] testPubkeyOf testPointAdd true).result
      = Except.error ("Timeout waiting for public key shares (received " ++
          toString dropEnv.pubKeyShares.length ++ "/" ++
          toString (testDKGConfig.totalParties - 1) ++ ")")
    ∧ (runDKGCeremony testDKGConfig dropEnv [5, 6, 7] testPubkeyOf testPointAdd
        true).persistedKeyShares = [] :=
  c5_timeout_at_pubkey_wait_and_no_persist testDKGConfig dropEnv [5, 6, 7] testPubkeyOf
    testPointAdd true (by rfl) (by decide)

/-- C6: commitment verification checks only that the commitment count equals
the threshold — a commitment set whose proof field is any string at all (no
proof of knowledge is ever verified) is accepted, both by `verifyCommitment`
and by the whole round-2 pass; a wrong-length set is rejected with an error
naming the faulting party. -/
theorem c6_commitment_accepted_without_pok_verification :
    (∀ (proofStr : String) (ts : Nat),
      verifyCommitment testDKGConfig
        { partyId := 4, commitments := ["02aa", "02bb", "02cc"],
          proof := proofStr, timestamp := ts } = true)
    ∧ round2_VerifyCommitments testDKGConfig
        { commitments :=
            [(2, testCommitment 2), (3, testCommitment 3),
             (4, { partyId := 4, commitments := ["02aa", "02bb", "02cc"],
                   proof := "not-a-proof-of-knowledge", timestamp := 0 }),
             (5, testCommitment 5)],
          shares := [], pubKeyShares := [] } = Except.ok ()
    ∧ round2_VerifyCommitments testDKGConfig
        { commitments :=
            [(2, testCommitment 2), (3, testCommitment 3),
             (4, { partyId := 4, commitments := ["02aa", "02bb"],
                   proof := "not-a-proof-of-knowledge", timestamp := 0 }),
             (5, testCommitment 5)],
          shares := [], pubKeyShares := [] }
      = Except.error "Invalid commitment from Party 4" := by
  exact ⟨fun _ _ => rfl, by rfl, by rfl⟩

/-- C7 counterexample: the coefficient sampling is the raw big-endian value of
32 random bytes — the all-zero draw yields 0 (outside `[1, q-1]`) and the
all-0xFF draw yields a value at least the curve order `q`. -/
theorem c7_sampling_can_yield_zero_or_exceed_order :
    sampleCoefficient (List.replicate 32 0) = 0
    ∧ secp256k1_n ≤ sampleCoefficient (List.replicate 32 255)
    ∧ ¬(1 ≤ sampleCoefficient (List.replicate 32 0)
        ∧ sampleCoefficient (List.replicate 32 0) ≤ secp256k1_n - 1) := by
  refine ⟨by rfl, by decide, ?_⟩
  intro h
  have h0 : sampleCoefficient (List.replicate 32 0) = 0 := by rfl
  rw [h0] at h
  exact absurd h.1 (by decide)

/-- C7 (amended): a sampled coefficient is only guaranteed to lie in
`[0, 2^256 - 1]`: it is the big-endian value of 32 bytes, with no reduction
modulo the curve order and no exclusion of zero. -/
theorem c7_coefficient_below_2pow256 (bytes : List Nat)
    (hlen : bytes.length = 32) (hb : ∀ b ∈ bytes, b < 256) :
    sampleCoefficient bytes < 2 ^ 256 := by
  have h := bytesFold_lt bytes 0 hb
  rw [hlen] at h
  have he : (0 + 1) * 256 ^ 32 = 2 ^ 256 := by norm_num
  rw [he] at h
  exact h

/-- C7 witness: the amended bound applied to a concrete 32-byte draw. -/
theorem c7_coefficient_below_2pow256_witness :
    sampleCoefficient (List.replicate 32 7) < 2 ^ 256 :=
  c7_coefficient_below_2pow256 (List.replicate 32 7) (by decide) (by decide)

/-- C8: for every authenticated cipher satisfying the AES-GCM inverse contract
(16-byte tag, decryption inverts encryption under the same key and iv), every
key derivation function, key share and password: decrypting the file key
store's encryption output with the same password recovers the original bytes,
and the output is laid out as salt(32) ∥ iv(16) ∥ tag(16) ∥ ciphertext with the
key derived by the PBKDF2 call with 100000 iterations and 32-byte output. -/
theorem c8_encrypt_decrypt_roundtrip_and_layout (C : GCMCipher)
    (kdf : String → List Nat → Nat → Nat → List Nat)
    (salt iv keyShare : List Nat) (password : String)
    (hsalt : salt.length = 32) (hiv : iv.length = 16)
    (htag : ∀ key iv0 pt, ((C.enc key iv0 pt).2).length = 16)
    (hinv : ∀ key iv0 pt, C.dec key iv0 (C.enc key iv0 pt).2 (C.enc key iv0 pt).1 = some pt) :
    decryptKeyShare C kdf (encryptKeyShare C kdf salt iv keyShare password) password
      = some keyShare
    ∧ encryptKeyShare C kdf salt iv keyShare password =
        salt ++ iv ++ (C.enc (kdf password salt 100000 32) iv keyShare).2 ++
          (C.enc (kdf password salt 100000 32) iv keyShare).1 := by
  refine ⟨?_, rfl⟩
  unfold decryptKeyShare encryptKeyShare
  have htag1 : ((C.enc (kdf password salt 100000 32) iv keyShare).2).length = 16 :=
    htag _ _ _
  have h48 : (salt ++ iv).length = 48 := by
    rw [List.length_append, hsalt, hiv]
  have h64 : ((salt ++ iv) ++ (C.enc (kdf password salt 100000 32) iv keyShare).2).length = 64 := by
    rw [List.length_append, h48, htag1]
  have h1 : (salt ++ iv ++ (C.enc (kdf password salt 100000 32) iv keyShare).2 ++
      (C.enc (kdf password salt 100000 32) iv keyShare).1).take 32 = salt := by
    rw [List.append_assoc, List.append_assoc]
    exact List.take_left' hsalt
  have h2 : ((salt ++ iv ++ (C.enc (kdf password salt 100000 32) iv keyShare).2 ++
      (C.enc (kdf password salt 100000 32) iv keyShare).1).drop 32).take 16 = iv := by
    rw [List.append_assoc, List.append_assoc, List.drop_left' hsalt]
    exact List.take_left' hiv
  have h3 : ((salt ++ iv ++ (C.enc (kdf password salt 100000 32) iv keyShare).2 ++
      (C.enc (kdf password salt 100000 32) iv keyShare).1).drop 48).take 16
      = (C.enc (kdf password salt 100000 32) iv keyShare).2 := by
    rw [show salt ++ iv ++ (C.enc (kdf password salt 100000 32) iv keyShare).2 ++
          (C.enc (kdf password salt 100000 32) iv keyShare).1
        = (salt ++ iv) ++ ((C.enc (kdf password salt 100000 32) iv keyShare).2 ++
          (C.enc (kdf password salt 100000 32) iv keyShare).1) by
      rw [List.append_assoc]]
    rw [List.drop_left' h48]
    exact List.take_left' htag1
  have h4 : (salt ++ iv ++ (C.enc (kdf password salt 100000 32) iv keyShare).2 ++
      (C.enc (kdf password salt 100000 32) iv keyShare).1).drop 64
      = (C.enc (kdf password salt 100000 32) iv keyShare).1 :=
    List.drop_left' h64
  rw [h1, h2, h3, h4]
  exact hinv _ _ _

/-- C8 witness: the roundtrip at a concrete cipher, key share and password. -/
theorem c8_roundtrip_witness :
    decryptKeyShare trivialCipher trivialKdf
      (encryptKeyShare trivialCipher trivialKdf (List.replicate 32 0) (List.replicate 16 0)
        [1, 2, 3] "pw") "pw" = some [1, 2, 3] :=
  (c8_encrypt_decrypt_roundtrip_and_layout trivialCipher trivialKdf
    (List.replicate 32 0) (List.replicate 16 0) [1, 2, 3] "pw"
    (by decide) (by decide) (fun _ _ _ => rfl) (fun _ _ _ => rfl)).1

/-- C9 counterexample: with no encryption password configured, the bytes the
file key store writes to disk are exactly the raw key share — the key share
leaves the store's control domain in plaintext for that configuration. -/
theorem c9_no_password_plaintext_written :
    storeKeyShareBytes trivialCipher trivialKdf none (List.replicate 32 0)
      (List.replicate 16 0) [1, 2, 3] = [1, 2, 3] := rfl

/-- C9 (amended): when an encryption password is configured, the bytes written
are the authenticated envelope salt ∥ iv ∥ tag ∥ ciphertext and never the raw
key share. -/
theorem c9_password_writes_encrypted_envelope (C : GCMCipher)
    (kdf : String → List Nat → Nat → Nat → List Nat) (pw : String)
    (salt iv keyShare : List Nat)
    (hsalt : salt.length = 32) (hiv : iv.length = 16)
    (htag : ((C.enc (kdf pw salt 100000 32) iv keyShare).2).length = 16)
    (hct : ((C.enc (kdf pw salt 100000 32) iv keyShare).1).length = keyShare.length) :
    storeKeyShareBytes C kdf (some pw) salt iv keyShare =
      salt ++ iv ++ (C.enc (kdf pw salt 100000 32) iv keyShare).2 ++
        (C.enc (kdf pw salt 100000 32) iv keyShare).1
    ∧ storeKeyShareBytes C kdf (some pw) salt iv keyShare ≠ keyShare := by
  refine ⟨rfl, ?_⟩
  intro h
  have hl := congrArg List.length h
  simp only [storeKeyShareBytes, encryptKeyShare, List.length_append,
    hsalt, hiv, htag, hct] at hl
  omega

/-- C9 witness: the amended statement at the concrete trivial cipher. -/
theorem c9_password_witness :
    storeKeyShareBytes trivialCipher trivialKdf (some "pw") (List.replicate 32 0)
      (List.replicate 16 0) [1, 2, 3] ≠ [1, 2, 3] :=
  (c9_password_writes_encrypted_envelope trivialCipher trivialKdf "pw"
    (List.replicate 32 0) (List.replicate 16 0) [1, 2, 3]
    (by decide) (by decide) (by decide) (by decide)).2

/-- C10: the signal-event handler is total in its error handling — for every
combination of failures of revenue recording, TSS signing initiation and the
orchestrator send, `handleSignalEvent` returns normally (no exception reaches
the chain monitor); a failure is only logged by the catch block, which fires
exactly when some attempted sub-operation failed. -/
theorem c10_handler_total_error_handling (o : OpOutcomes) (ev : SignalEventM) (s : NodeState) :
    (handleSignalEvent o ev s).rethrown = false
    ∧ ((handleSignalEvent o ev s).loggedError.isSome ↔
        (o.revenueThrows = true ∨ o.signingThrows = true ∨
          (o.wsOpen = true ∧ o.sendThrows = true))) := by
  obtain ⟨r, g, w, d⟩ := o
  cases r <;> cases g <;> cases w <;> cases d <;>
    simp [handleSignalEvent, handleSignalEventTry]
